import Mathlib

/-!
# Verification of the notional polymorphic object core

Shallow embedding of `notional/core.py` (the `AdaptiveObject` variant
registry and resolver, the `NotionObject` serializer / deserializer /
`update`, and the `ComposableObjectMeta.__getitem__` dispatch) together
with the concrete `TextObject` shapes from `notional/types.py`.

Python `dict`s are modelled as ordered association lists with unique keys;
`dict.get` is `dictGet?`.  Variant classes are identified by name
(`VariantId`).  JSON-decoded values are the `JVal` inductive.
-/

mutual

/-- A JSON-decoded value (string, integer, boolean, or nested object). -/
inductive JVal where
  | str (s : String)
  | int (n : Int)
  | bool (b : Bool)
  | obj (fields : JFields)
deriving DecidableEq, Repr

/-- The ordered fields of a nested JSON object. -/
inductive JFields where
  | nil
  | cons (k : String) (v : JVal) (rest : JFields)
deriving DecidableEq, Repr

end

/-- A concrete variant class, identified by its class name. -/
abbrev VariantId := String

/-- `d.get(k)` on a Python dict modelled as an ordered association list. -/
def dictGet? {α : Type} (d : List (String × α)) (k : String) : Option α :=
  match d with
  | [] => none
  | (k2, v) :: rest => if k2 = k then some v else dictGet? rest k

/-- `d[k] = v` on a Python dict: replace in place if the key exists,
otherwise append the new key at the end (insertion order). -/
def dictSet {α : Type} (d : List (String × α)) (k : String) (v : α) :
    List (String × α) :=
  match d with
  | [] => [(k, v)]
  | (k2, v2) :: rest =>
      if k2 = k then (k, v) :: rest else (k2, v2) :: dictSet rest k v

/-- The `__notional_typemap__` of a family: discriminator field name ↦
(discriminator value ↦ registered variant). -/
abbrev Typemap := List (String × List (String × VariantId))

/-- `AdaptiveObject._register_adaptive_type(name, value)` called on class
`cls`, acting on the family typemap `tm` (the attribute is created empty
when missing, which `tm` being the current state already models).
Mirrors `core.py` lines 206-227: fetch the per-field map, raise
`ValueError` (`Duplicate subtype for class`) whenever `value` is already a
key, insert `value ↦ cls` when `value is not None`, and store the map
back under `name`. -/
def registerAdaptiveType (tm : Typemap) (name : String) (value : Option String)
    (cls : VariantId) : Except String Typemap :=
  let sub := (dictGet? tm name).getD []
  match value with
  | some v =>
      if (dictGet? sub v).isSome then
        .error ("Duplicate subtype for class - " ++ name ++ " [" ++ v ++ "] => " ++ cls)
      else
        .ok (dictSet tm name (sub ++ [(v, cls)]))
  | none => .ok (dictSet tm name sub)

/-- A JSON-decoded payload handed to the resolver: Python values of the
discriminator fields.  An entry `(k, none)` is a key explicitly set to
`None`; an absent key is simply not in the list. -/
abbrev PyDict := List (String × Option String)

/-- `obj.get(name)` as used by the resolver: absent keys and explicit
`None` values both read as `None`. -/
def pyGet (d : PyDict) (k : String) : Option String :=
  match dictGet? d k with
  | some (some v) => some v
  | _ => none

/-- Outcome of `AdaptiveObject._resolve_adaptive_type`. -/
inductive ResolveResult where
  | passthrough
  | malformed
  | missingTypemap
  | unsupportedSubtype (name value : String)
  | variant (cls : VariantId)
  | fallback
deriving DecidableEq, Repr

/-- The `for name, typemap in cls.__notional_typemap__.items()` loop of
`_resolve_adaptive_type` (`core.py` lines 246-266): skip fields whose
value reads as `None`, raise `TypeError` (`Unsupported sub-type`) when the
first present value is unmapped, return the mapped variant otherwise, and
fall through to `super().model_validate(obj)` when the loop exhausts. -/
def resolveLoop : Typemap → PyDict → ResolveResult
  | [], _ => .fallback
  | (name, sub) :: rest, obj =>
      match pyGet obj name with
      | none => resolveLoop rest obj
      | some value =>
          match dictGet? sub value with
          | none => .unsupportedSubtype name value
          | some cls => .variant cls

/-- Input to `_resolve_adaptive_type`: an object that already is an
instance of the requested class, a JSON dict, or anything else. -/
inductive ResolveInput where
  | inst
  | dict (entries : PyDict)
  | nonDict
deriving DecidableEq, Repr

/-- `AdaptiveObject._resolve_adaptive_type(obj)` (`core.py` lines
229-266).  `typemap? = none` models a class without the
`__notional_typemap__` attribute. -/
def resolveAdaptiveType (typemap? : Option Typemap) (obj : ResolveInput) :
    ResolveResult :=
  match obj with
  | .inst => .passthrough
  | .nonDict => .malformed
  | .dict entries =>
      match typemap? with
      | none => .missingTypemap
      | some tm => resolveLoop tm entries

/-- The first discriminator field of the typemap (in registration order)
whose value is present (non-`None`) in the payload, together with its
per-field map and the value read. -/
def firstPresent : Typemap → PyDict → Option (String × List (String × VariantId) × String)
  | [], _ => none
  | (name, sub) :: rest, obj =>
      match pyGet obj name with
      | some v => some (name, sub, v)
      | none => firstPresent rest obj

/-- The declared default of a pydantic field: either the field is
required, or it has a default value (`none` models Python `None`). -/
inductive FieldDefault where
  | required
  | default (v : Option JVal)
deriving DecidableEq, Repr

/-- A pydantic field definition as the core uses it: name, optional wire
alias, `frozen` flag, and default status. -/
structure FieldSchema where
  name : String
  wireAlias : Option String := none
  frozen : Bool := false
  defVal : FieldDefault := .required
deriving DecidableEq, Repr

/-- The wire key of a field: its alias when declared, its name otherwise. -/
def aliasedName (f : FieldSchema) : String :=
  match f.wireAlias with
  | some a => a
  | none => f.name

/-- A live pydantic model instance: each declared field paired with its
current value (`none` is Python `None`). -/
abbrev Instance := List (FieldSchema × Option JVal)

/-- `model_dump(mode="json", exclude_none=True, by_alias=True)`: fields
holding `None` contribute no key; the others are emitted under their
aliased name in declaration order.  This is the PYTHON (= API, "Native")
branch of `NotionObject.serialize` (`core.py` lines 101-113). -/
def modelDump : Instance → List (String × JVal)
  | [] => []
  | (_, none) :: rest => modelDump rest
  | (f, some v) :: rest => (aliasedName f, v) :: modelDump rest

/-- Validate one field of a dict input: take the value stored under the
field's wire key when present, otherwise fall back to the declared
default, failing when the field is required. -/
def validateField (input : List (String × JVal)) (f : FieldSchema) :
    Except String (Option JVal) :=
  match dictGet? input (aliasedName f) with
  | some v => .ok (some v)
  | none =>
      match f.defVal with
      | .required => .error ("Field required: " ++ f.name)
      | .default d => .ok d

/-- `model_validate` of a dict against a schema: every field is validated
in declaration order; extra keys of the input are ignored.  This is the
validation performed by `NotionObject.deserialize` for a leaf class (its
`TypeAdapter` holds exactly that class) and by `NotionObject.update` on
the patch. -/
def validateFields : List FieldSchema → List (String × JVal) → Except String Instance
  | [], _ => .ok []
  | f :: fs, input =>
      match validateField input f with
      | .error e => .error e
      | .ok v =>
          match validateFields fs input with
          | .error e => .error e
          | .ok rest => .ok ((f, v) :: rest)

/-- `model_dump(exclude_defaults=True)` (no aliasing, `None` kept):
required fields are always emitted; defaulted fields are emitted exactly
when their value differs from the declared default.  Used by
`NotionObject.update` on the validated patch. -/
def dumpExcludeDefaults : Instance → List (String × Option JVal)
  | [] => []
  | (f, v) :: rest =>
      match f.defVal with
      | .required => (f.name, v) :: dumpExcludeDefaults rest
      | .default d =>
          if v = d then dumpExcludeDefaults rest
          else (f.name, v) :: dumpExcludeDefaults rest

/-- `setattr(instance, name, value)` on a pydantic model: unknown names
are rejected, assignment to a frozen field raises, otherwise the named
field's value is replaced. -/
def setattrField (inst : Instance) (name : String) (v : Option JVal) :
    Except String Instance :=
  match inst.find? (fun fv => fv.1.name = name) with
  | none => .error ("object has no field " ++ name)
  | some fv =>
      if fv.1.frozen then .error ("Field is frozen: " ++ name)
      else .ok (inst.map fun gv => if gv.1.name = name then (gv.1, v) else gv)

/-- The `for name, value in partial_data.items(): setattr(self, name, value)`
loop of `NotionObject.update`.  An error carries the instance state at the
moment the exception is raised. -/
def updateGo : Instance → List (String × Option JVal) → Except (String × Instance) Instance
  | inst, [] => .ok inst
  | inst, (n, v) :: rest =>
      match setattrField inst n v with
      | .error e => .error (e, inst)
      | .ok inst2 => updateGo inst2 rest

/-- `NotionObject.update(**data)` (`core.py` lines 84-99): validate `data`
as a complete object of the instance's type, dump the validated model
excluding defaults, and write each remaining field back onto the live
instance. -/
def updateFields (inst : Instance) (data : List (String × JVal)) :
    Except (String × Instance) Instance :=
  match validateFields (inst.map (·.1)) data with
  | .error e => .error (e, inst)
  | .ok pm => updateGo inst (dumpExcludeDefaults pm)

/-- The merge the spec describes for `apply_partial`: fields named in the
patch dump take their patched value, all other fields keep their previous
value. -/
def mergeSpec (inst : Instance) (pd : List (String × Option JVal)) : Instance :=
  inst.map fun fv =>
    match dictGet? pd fv.1.name with
    | some v => (fv.1, v)
    | none => fv

/-- `AdaptiveObject._update_field_schema(name, frozen, default)`
(`core.py` lines 183-204): fail on an unknown field; otherwise set the
default (unless the `Ellipsis` sentinel, modelled by `none`) and the
frozen flag on the named field. -/
def updateFieldSchema (fields : List FieldSchema) (name : String)
    (frozen : Bool) (dflt : Option (Option JVal)) : Except String (List FieldSchema) :=
  if fields.any (fun f => f.name = name) then
    .ok (fields.map fun f =>
      if f.name = name then
        let f1 := match dflt with
          | some d => { f with defVal := .default d }
          | none => f
        if frozen then { f1 with frozen := true } else f1
      else f)
  else .error ("unknown field: " ++ name)

/-- `AdaptiveObject.__pydantic_init_subclass__(**kwargs)` (`core.py`
lines 170-181): for each keyword `(name, value)` freeze field `name` and
fix its default to `value`. -/
def pydanticInitSubclass (fields : List FieldSchema) :
    List (String × JVal) → Except String (List FieldSchema)
  | [] => .ok fields
  | (n, v) :: rest =>
      match updateFieldSchema fields n true (some (some v)) with
      | .error e => .error e
      | .ok f2 => pydanticInitSubclass f2 rest

/-- `LinkObject` (`types.py` lines 48-52). -/
structure LinkObject where
  type : String := "url"
  url : Option String := none
deriving DecidableEq, Repr

/-- `Annotations` (`types.py` lines 21-45); `color` is kept as a plain
string name. -/
structure Annotations where
  bold : Bool := false
  italic : Bool := false
  strikethrough : Bool := false
  underline : Bool := false
  code : Bool := false
  color : Option String := none
deriving DecidableEq, Repr

/-- `TextObject.NestedData` (`types.py` lines 109-111). -/
structure TextNestedData where
  content : String
  link : Option LinkObject := none
deriving DecidableEq, Repr

/-- `TextObject` (`types.py` lines 106-122): `type` fixed to `"text"` by
registration, `plain_text` required, the rest defaulting to `None`. -/
structure TextObject where
  type : String := "text"
  plain_text : String
  href : Option String := none
  annotations : Option Annotations := none
  text : Option TextNestedData := none
deriving DecidableEq, Repr

/-- `TextObject.from_value(string)` (`types.py` lines 115-122). -/
def TextObject.from_value (string : String) : TextObject :=
  let text : TextNestedData := { content := string }
  { plain_text := string, text := some text }

/-- A Python value passed to `ComposableObjectMeta.__getitem__`.  Lists
and tuples record whether their runtime type is exactly `list` / `tuple`
(`exactTy = false` models a subclass instance). -/
inductive PyParams where
  | pyStr (s : String)
  | pyInt (n : Int)
  | pyNone
  | pyList (exactTy : Bool) (xs : List PyParams)
  | pyTuple (exactTy : Bool) (xs : List PyParams)

/-- Python truthiness of a `PyParams` value. -/
def PyParams.truthy : PyParams → Bool
  | .pyStr s => s != ""
  | .pyInt n => n != 0
  | .pyNone => false
  | .pyList _ xs => !xs.isEmpty
  | .pyTuple _ xs => !xs.isEmpty

/-- `type(params) in (list, tuple)`: an exact-type test, false for
subclasses of `list` or `tuple`. -/
def PyParams.isExactSeq : PyParams → Bool
  | .pyList exactTy _ => exactTy
  | .pyTuple exactTy _ => exactTy
  | _ => false

/-- The elements of a list/tuple value. -/
def PyParams.seqElems : PyParams → List PyParams
  | .pyList _ xs => xs
  | .pyTuple _ xs => xs
  | p => [p]

/-- `ComposableObjectMeta.__getitem__(cls, params)` (`core.py` lines
55-74): raise `NotImplementedError` when the class has no `__compose__`;
unpack `params` into separate arguments when it is truthy and of exact
type `list` or `tuple`; otherwise pass it as the single argument.  A call
`compose(*args)` is modelled as applying the composition rule to the
argument list. -/
def getitemCompose {α : Type} (compose? : Option (List PyParams → α))
    (params : PyParams) : Except String α :=
  match compose? with
  | none => .error "does not support object composition"
  | some c =>
      if params.truthy && params.isExactSeq then .ok (c params.seqElems)
      else .ok (c [params])

/-- Modelled from the spec: the `__compose__` hook of `TextObject` is not
under `src/` (only `ComposableObjectMeta.__getitem__` and
`TextObject.from_value` are).  Spec §4.3/§8: "a single string becomes a
full rich-text span with default styling" — a single string parameter is
composed through `TextObject.from_value`; other shapes are out of scope
here. -/
def TextObject.composeFromParams : List PyParams → Option TextObject
  | [.pyStr s] => some (TextObject.from_value s)
  | _ => none

/-- A sample composition rule used by concrete witnesses: the number of
arguments received. -/
def composeArity : List PyParams → Nat := List.length

/-- The pydantic fields of `TextObject` as declared, before the
`type="text"` class keyword is processed: `type` (from `TypedObject`,
required `str`), `plain_text` required, `href`, `annotations` and `text`
defaulting to `None`.  No field declares an alias. -/
def textObjectBaseFields : List FieldSchema :=
  [ { name := "type" },
    { name := "plain_text" },
    { name := "href", defVal := .default none },
    { name := "annotations", defVal := .default none },
    { name := "text", defVal := .default none } ]

/-- The pydantic fields of `TextObject` after
`__pydantic_init_subclass__(type="text")` has run: `type` is frozen with
default `"text"`. -/
def textObjectFields : List FieldSchema :=
  [ { name := "type", frozen := true, defVal := .default (some (.str "text")) },
    { name := "plain_text" },
    { name := "href", defVal := .default none },
    { name := "annotations", defVal := .default none },
    { name := "text", defVal := .default none } ]

/-- Looking up the key just stored by dictSet returns the stored value. -/
theorem dictGet?_dictSet_self {α : Type} (d : List (String × α)) (k : String) (v : α) :
    dictGet? (dictSet d k v) k = some v := by
  induction d with
  | nil => simp [dictSet, dictGet?]
  | cons p t ih =>
      obtain ⟨k2, v2⟩ := p
      by_cases hk : k2 = k
      · simp [dictSet, dictGet?, hk]
      · simp [dictSet, dictGet?, hk, ih]

/-- Appending a fresh key to an association list makes it retrievable. -/
theorem dictGet?_append_fresh {α : Type} (l : List (String × α)) (k : String) (v : α)
    (h : dictGet? l k = none) : dictGet? (l ++ [(k, v)]) k = some v := by
  induction l with
  | nil => simp [dictGet?]
  | cons p t ih =>
      obtain ⟨k2, v2⟩ := p
      by_cases hk : k2 = k
      · simp [dictGet?, hk] at h
      · simp only [dictGet?, List.cons_append, if_neg hk] at h ⊢
        exact ih h

/-- Claim C1, counterexample: with `TextObject` already registered for
`("type", "text")`, registering the identical variant again under the same
pair raises the duplicate error instead of being an idempotent no-op. -/
theorem C1_counterexample :
    dictGet? [("text", "TextObject")] "text" = some "TextObject" ∧
    (registerAdaptiveType [("type", [("text", "TextObject")])] "type" (some "text")
        "TextObject").isOk = false := by
  exact ⟨rfl, rfl⟩

/-- Claim C1 (amended): registration fails with the duplicate-variant
error exactly when the (field, value) pair already has ANY entry — a
different variant or the identical one alike — and on success the variant
is recorded under that pair. -/
theorem C1_register_amended (tm : Typemap) (name v : String) (cls : VariantId) :
    ((registerAdaptiveType tm name (some v) cls).isOk = false ↔
      (dictGet? ((dictGet? tm name).getD []) v).isSome = true) ∧
    (∀ tm2, registerAdaptiveType tm name (some v) cls = .ok tm2 →
      dictGet? ((dictGet? tm2 name).getD []) v = some cls) := by
  simp only [registerAdaptiveType]
  cases h : (dictGet? ((dictGet? tm name).getD []) v).isSome with
  | true => simp [h, Except.isOk, Except.toBool]
  | false =>
      simp only [h, Bool.false_eq_true, if_false, if_neg]
      constructor
      · simp [Except.isOk, Except.toBool]
      · intro tm2 htm2
        cases htm2
        rw [dictGet?_dictSet_self]
        simp only [Option.getD_some]
        exact dictGet?_append_fresh _ _ _ (Option.not_isSome_iff_eq_none.mp (by simp [h]))

/-- Witness for the amended C1 at a concrete input: registering
`("type", "text")` into an empty registry succeeds and records the
variant, and its failure condition is decidable false there. -/
theorem C1_register_amended_witness :
    dictGet? ((dictGet? [("type", [("text", "TextObject")])] "type").getD []) "text"
      = some "TextObject" := by
  exact (C1_register_amended [] "type" "text" "TextObject").2
    [("type", [("text", "TextObject")])] rfl

/-- Claim C2, counterexample: against a family whose registry is
non-empty (it maps `("type", "text")` to `TextObject`), resolving a dict
that contains no discriminator field falls through to generic structural
validation of the base shape instead of failing. -/
theorem C2_counterexample :
    resolveAdaptiveType (some [("type", [("text", "TextObject")])]) (.dict [])
      = .fallback := by
  rfl

/-- Claim C2 (amended): whenever no discriminator field of the family
reads a non-null value from the payload, the resolver falls back to
generic structural validation of the base shape — it does not raise. -/
theorem C2_resolve_amended (tm : Typemap) (obj : PyDict)
    (h : ∀ p ∈ tm, pyGet obj p.1 = none) :
    resolveAdaptiveType (some tm) (.dict obj) = .fallback := by
  simp only [resolveAdaptiveType]
  induction tm with
  | nil => rfl
  | cons p rest ih =>
      obtain ⟨name, sub⟩ := p
      have h1 : pyGet obj name = none := h _ (List.mem_cons_self _ _)
      simp only [resolveLoop, h1]
      exact ih fun q hq => h q (List.mem_cons_of_mem _ hq)

/-- Witness for the amended C2 at a concrete input: a payload whose only
key is an unrelated field (and one explicit null) resolves to the
fallback. -/
theorem C2_resolve_amended_witness :
    resolveAdaptiveType (some [("type", [("text", "TextObject")])])
      (.dict [("object", some "block"), ("id", none)]) = .fallback := by
  exact C2_resolve_amended _ _ (by decide)

/-- Claim C3, counterexample: the payload carries the known discriminator
field `type` with the unregistered value `bogus`, yet resolution succeeds
through the earlier field `object` instead of raising the
unsupported-sub-type error. -/
theorem C3_counterexample :
    dictGet? [("text", "TextObject")] "bogus" = none ∧
    pyGet [("object", some "block"), ("type", some "bogus")] "type" = some "bogus" ∧
    resolveAdaptiveType
        (some [("object", [("block", "Block")]), ("type", [("text", "TextObject")])])
        (.dict [("object", some "block"), ("type", some "bogus")])
      = .variant "Block" := by
  exact ⟨rfl, rfl, rfl⟩

/-- The resolver loop is decided entirely by the first discriminator
field present (non-null) in the payload: its per-field lookup either
raises the unsupported-sub-type error or yields the resolved variant;
later discriminator fields are never consulted. -/
theorem resolveLoop_firstPresent (tm : Typemap) (obj : PyDict)
    (name : String) (sub : List (String × VariantId)) (v : String)
    (h1 : firstPresent tm obj = some (name, sub, v)) :
    resolveLoop tm obj =
      (match dictGet? sub v with
       | none => .unsupportedSubtype name v
       | some cls => .variant cls) := by
  induction tm with
  | nil => simp [firstPresent] at h1
  | cons p rest ih =>
      obtain ⟨n2, s2⟩ := p
      cases hg : pyGet obj n2 with
      | some w =>
          simp only [firstPresent, hg, Option.some.injEq, Prod.mk.injEq] at h1
          obtain ⟨hn, hs, hv⟩ := h1
          subst hn; subst hs; subst hv
          simp only [resolveLoop, hg]
      | none =>
          simp only [firstPresent, hg] at h1
          simp only [resolveLoop, hg]
          exact ih h1

/-- Claim C3 (amended): the resolver raises the unsupported-sub-type
error (naming the field and value) exactly when the FIRST discriminator
field, in registration order, that reads a non-null value from the
payload has an unregistered value; when that first field's value is
registered, resolution returns that variant without raising, so an
unregistered value in a later discriminator field never raises. -/
theorem C3_resolve_amended (tm : Typemap) (obj : PyDict)
    (name : String) (sub : List (String × VariantId)) (v : String)
    (h1 : firstPresent tm obj = some (name, sub, v)) :
    (dictGet? sub v = none →
      resolveAdaptiveType (some tm) (.dict obj) = .unsupportedSubtype name v) ∧
    (∀ cls, dictGet? sub v = some cls →
      resolveAdaptiveType (some tm) (.dict obj) = .variant cls) := by
  constructor
  · intro h2
    have h := resolveLoop_firstPresent tm obj name sub v h1
    rw [h2] at h
    simpa [resolveAdaptiveType] using h
  · intro cls h2
    have h := resolveLoop_firstPresent tm obj name sub v h1
    rw [h2] at h
    simpa [resolveAdaptiveType] using h

/-- Witness for the amended C3 at concrete inputs, one per direction:
with the single known field `type` holding the unregistered value
`bogus`, resolution raises the unsupported-sub-type error; and when the
first present field `object` holds a registered value, resolution
returns that variant even though the later field `type` holds an
unregistered value. -/
theorem C3_resolve_amended_witness :
    resolveAdaptiveType (some [("type", [("text", "TextObject")])])
        (.dict [("type", some "bogus")]) = .unsupportedSubtype "type" "bogus" ∧
    resolveAdaptiveType
        (some [("object", [("block", "Block")]), ("type", [("text", "TextObject")])])
        (.dict [("object", some "block"), ("type", some "bogus")]) = .variant "Block" := by
  refine ⟨(C3_resolve_amended [("type", [("text", "TextObject")])]
      [("type", some "bogus")] "type" [("text", "TextObject")] "bogus" rfl).1 rfl,
    (C3_resolve_amended [("object", [("block", "Block")]), ("type", [("text", "TextObject")])]
      [("object", some "block"), ("type", some "bogus")]
      "object" [("block", "Block")] "block" rfl).2 "Block" rfl⟩

/-- A successful dict lookup exhibits a matching entry of the list. -/
theorem mem_of_dictGet?_some {α : Type} {d : List (String × α)} {k : String} {x : α}
    (h : dictGet? d k = some x) : (k, x) ∈ d := by
  induction d with
  | nil => simp [dictGet?] at h
  | cons p t ih =>
      obtain ⟨k2, v2⟩ := p
      by_cases hk : k2 = k
      · subst hk
        simp only [dictGet?, if_true, eq_self_iff_true, Option.some.injEq] at h
        subst h
        exact List.mem_cons_self _ _
      · simp only [dictGet?, if_neg hk] at h
        exact List.mem_cons_of_mem _ (ih h)

/-- Looking up a key that is not among the keys of the list fails. -/
theorem dictGet?_eq_none_of_notMem {α : Type} {d : List (String × α)} {k : String}
    (h : k ∉ d.map Prod.fst) : dictGet? d k = none := by
  cases hg : dictGet? d k with
  | none => rfl
  | some x =>
      exact absurd (List.mem_map_of_mem Prod.fst (mem_of_dictGet?_some hg)) h

/-- Every entry of the serialized dump comes from a field of the instance
holding a present value, emitted under the field's aliased name. -/
theorem modelDump_entry {fields : Instance} {e : String × JVal} (h : e ∈ modelDump fields) :
    ∃ fv ∈ fields, fv.2 = some e.2 ∧ e.1 = aliasedName fv.1 := by
  induction fields with
  | nil => simp [modelDump] at h
  | cons fv rest ih =>
      obtain ⟨f, v⟩ := fv
      cases v with
      | none =>
          simp only [modelDump] at h
          obtain ⟨gv, hgv, hrest⟩ := ih h
          exact ⟨gv, List.mem_cons_of_mem _ hgv, hrest⟩
      | some x =>
          simp only [modelDump] at h
          rcases List.mem_cons.mp h with heq | hmem
          · subst heq
            exact ⟨(f, some x), List.mem_cons_self _ _, rfl, rfl⟩
          · obtain ⟨gv, hgv, hrest⟩ := ih hmem
            exact ⟨gv, List.mem_cons_of_mem _ hgv, hrest⟩

/-- If no field of the instance has the wire key `k`, the dump has no
entry for `k`. -/
theorem modelDump_get_none {fields : Instance} {k : String}
    (h : ∀ fv ∈ fields, aliasedName fv.1 ≠ k) :
    dictGet? (modelDump fields) k = none := by
  apply dictGet?_eq_none_of_notMem
  intro hk
  obtain ⟨e, he, hfst⟩ := List.mem_map.mp hk
  obtain ⟨fv, hfv, _, hname⟩ := modelDump_entry he
  exact h fv hfv (hname ▸ hfst)

/-- Under unique wire keys, the dump maps the key of a present-valued
field to exactly that value. -/
theorem modelDump_get_some {fields : Instance} {f : FieldSchema} {v : JVal}
    (hnodup : (fields.map fun fv => aliasedName fv.1).Nodup)
    (hmem : (f, some v) ∈ fields) :
    dictGet? (modelDump fields) (aliasedName f) = some v := by
  induction fields with
  | nil => simp at hmem
  | cons gv rest ih =>
      obtain ⟨g, w⟩ := gv
      simp only [List.map_cons, List.nodup_cons] at hnodup
      obtain ⟨hnotmem, hnd⟩ := hnodup
      rcases List.mem_cons.mp hmem with heq | hmem2
      · obtain ⟨hg, hw⟩ := Prod.mk.injEq .. ▸ heq
        subst hg
        rw [← hw]
        simp [modelDump, dictGet?]
      · have hne : aliasedName g ≠ aliasedName f := by
          intro hcontra
          exact hnotmem (hcontra ▸ List.mem_map_of_mem (fun fv => aliasedName fv.1) hmem2)
        cases w with
        | none => simpa [modelDump] using ih hnd hmem2
        | some y =>
            simp only [modelDump, dictGet?, if_neg hne]
            exact ih hnd hmem2

/-- Adding an input key that no field of the schema uses as wire key does
not change validation. -/
theorem validateFields_extraKey (fs : List FieldSchema) (input : List (String × JVal))
    (k : String) (x : JVal) (h : ∀ g ∈ fs, aliasedName g ≠ k) :
    validateFields fs ((k, x) :: input) = validateFields fs input := by
  induction fs with
  | nil => rfl
  | cons f rest ih =>
      have hne : k ≠ aliasedName f := fun hc => h f (List.mem_cons_self _ _) hc.symm
      simp only [validateFields, validateField, dictGet?, if_neg hne]
      rw [ih fun g hg => h g (List.mem_cons_of_mem _ hg)]

/-- Claim C4 (confirmed): Native-mode serialization followed by
deserialization reconstructs the instance exactly.  The hypotheses state
that the instance is a valid instance of a source-style variant: wire
keys are unique, and a field may hold Python `None` only when its
declared default is `None` (every optional field of the source models
defaults to `None`; no field is marked ephemeral, so the claim's
exception clause is vacuous). -/
theorem C4_serialize_roundtrip (fields : Instance)
    (hnodup : (fields.map fun fv => aliasedName fv.1).Nodup)
    (hvalid : ∀ fv ∈ fields, fv.2 = none → fv.1.defVal = .default none) :
    validateFields (fields.map (·.1)) (modelDump fields) = .ok fields := by
  induction fields with
  | nil => rfl
  | cons fv rest ih =>
      obtain ⟨f, v⟩ := fv
      simp only [List.map_cons, List.nodup_cons] at hnodup
      obtain ⟨hnotmem, hnd⟩ := hnodup
      have hrest : validateFields (rest.map (·.1)) (modelDump rest) = .ok rest :=
        ih hnd fun gv hgv hnone => hvalid gv (List.mem_cons_of_mem _ hgv) hnone
      cases v with
      | none =>
          have hdef : f.defVal = .default none :=
            hvalid (f, none) (List.mem_cons_self _ _) rfl
          have hlook : dictGet? (modelDump rest) (aliasedName f) = none := by
            apply modelDump_get_none
            intro gv hgv hc
            exact hnotmem (hc ▸ List.mem_map_of_mem (fun fv => aliasedName fv.1) hgv)
          simp only [modelDump, List.map_cons, validateFields, validateField, hlook, hdef,
            hrest]
      | some x =>
          have hextra : validateFields (rest.map (·.1)) ((aliasedName f, x) :: modelDump rest)
              = validateFields (rest.map (·.1)) (modelDump rest) := by
            apply validateFields_extraKey
            intro g hg hc
            obtain ⟨gv, hgv, hgfst⟩ := List.mem_map.mp hg
            apply hnotmem
            have hgf : aliasedName gv.1 = aliasedName f := by rw [hgfst, hc]
            exact hgf ▸ List.mem_map_of_mem (fun fv => aliasedName fv.1) hgv
          have hself : dictGet? ((aliasedName f, x) :: modelDump rest) (aliasedName f)
              = some x := by
            simp [dictGet?]
          simp only [modelDump, List.map_cons, validateFields, validateField, hself, hextra,
            hrest]

/-- Witness for C4 at a concrete input: a fully populated `TextObject`
instance (with its unset optionals) survives the serialize→deserialize
cycle unchanged. -/
theorem C4_serialize_roundtrip_witness :
    validateFields
      ([ ({ name := "type", frozen := true, defVal := .default (some (.str "text")) },
            some (JVal.str "text")),
         ({ name := "plain_text" }, some (JVal.str "hello")),
         ({ name := "href", defVal := .default none }, (none : Option JVal)),
         ({ name := "annotations", defVal := .default none }, (none : Option JVal)),
         ({ name := "text", defVal := .default none },
            some (JVal.obj (.cons "content" (.str "hello") .nil))) ].map (·.1))
      (modelDump
        [ ({ name := "type", frozen := true, defVal := .default (some (.str "text")) },
             some (JVal.str "text")),
          ({ name := "plain_text" }, some (JVal.str "hello")),
          ({ name := "href", defVal := .default none }, (none : Option JVal)),
          ({ name := "annotations", defVal := .default none }, (none : Option JVal)),
          ({ name := "text", defVal := .default none },
             some (JVal.obj (.cons "content" (.str "hello") .nil))) ])
      = .ok
      [ ({ name := "type", frozen := true, defVal := .default (some (.str "text")) },
           some (JVal.str "text")),
        ({ name := "plain_text" }, some (JVal.str "hello")),
        ({ name := "href", defVal := .default none }, (none : Option JVal)),
        ({ name := "annotations", defVal := .default none }, (none : Option JVal)),
        ({ name := "text", defVal := .default none },
           some (JVal.obj (.cons "content" (.str "hello") .nil))) ] := by
  exact C4_serialize_roundtrip _ (by decide) (by decide)

/-- Claim C5 (confirmed): in Native-mode output, a field holding `None`
(unset optional) contributes no key, a field holding a present value —
falsy ones such as `0` or `false` included — is retained under its wire
key with exactly that value, and every emitted key is the field's aliased
name.  The hypothesis is that wire keys are unique, as pydantic field
names are. -/
theorem C5_serialize_omits_unset (fields : Instance)
    (hnodup : (fields.map fun fv => aliasedName fv.1).Nodup) :
    (∀ fv ∈ fields, fv.2 = none →
        dictGet? (modelDump fields) (aliasedName fv.1) = none) ∧
    (∀ fv ∈ fields, ∀ v, fv.2 = some v →
        dictGet? (modelDump fields) (aliasedName fv.1) = some v) ∧
    (∀ e ∈ modelDump fields, ∃ fv ∈ fields, fv.2 = some e.2 ∧ e.1 = aliasedName fv.1) := by
  refine ⟨?_, ?_, fun e he => modelDump_entry he⟩
  · intro fv hfv hnone
    cases hg : dictGet? (modelDump fields) (aliasedName fv.1) with
    | none => rfl
    | some x =>
        obtain ⟨gv, hgv, hgval, hgname⟩ := modelDump_entry (mem_of_dictGet?_some hg)
        have heq : gv = fv :=
          List.inj_on_of_nodup_map hnodup hgv hfv hgname.symm
        rw [heq] at hgval
        rw [hnone] at hgval
        cases hgval
  · intro fv hfv v hv
    have hmem : (fv.1, some v) ∈ fields := by
      have heta : (fv.1, some v) = fv := by rw [← hv]
      rw [heta]
      exact hfv
    exact modelDump_get_some hnodup hmem

/-- Witness for C5 at a concrete input: the unset `color` key is absent
from the dump, the explicitly-false `bold` is retained, and the aliased
`count` field appears under its wire name with value `0`. -/
theorem C5_serialize_omits_unset_witness :
    dictGet? (modelDump
        [ ({ name := "bold" }, some (JVal.bool false)),
          ({ name := "color", defVal := .default none }, (none : Option JVal)),
          ({ name := "count", wireAlias := some "wire_count", defVal := .default none },
             some (JVal.int 0)) ])
      "color" = none ∧
    dictGet? (modelDump
        [ ({ name := "bold" }, some (JVal.bool false)),
          ({ name := "color", defVal := .default none }, (none : Option JVal)),
          ({ name := "count", wireAlias := some "wire_count", defVal := .default none },
             some (JVal.int 0)) ])
      "bold" = some (JVal.bool false) ∧
    dictGet? (modelDump
        [ ({ name := "bold" }, some (JVal.bool false)),
          ({ name := "color", defVal := .default none }, (none : Option JVal)),
          ({ name := "count", wireAlias := some "wire_count", defVal := .default none },
             some (JVal.int 0)) ])
      "wire_count" = some (JVal.int 0) := by
  refine ⟨(C5_serialize_omits_unset _ (by decide)).1
            ({ name := "color", defVal := .default none }, none) (by decide) rfl,
          (C5_serialize_omits_unset _ (by decide)).2.1
            ({ name := "bold" }, some (JVal.bool false)) (by decide) _ rfl,
          (C5_serialize_omits_unset _ (by decide)).2.1
            ({ name := "count", wireAlias := some "wire_count", defVal := .default none },
               some (JVal.int 0)) (by decide) _ rfl⟩

/-- A successful validation returns an instance over exactly the
requested schema. -/
theorem validateFields_schema {fs : List FieldSchema} {input : List (String × JVal)}
    {pm : Instance} (h : validateFields fs input = .ok pm) : pm.map (·.1) = fs := by
  induction fs generalizing pm with
  | nil =>
      simp only [validateFields, Except.ok.injEq] at h
      subst h
      rfl
  | cons f rest ih =>
      simp only [validateFields] at h
      cases hf : validateField input f with
      | error e => rw [hf] at h; cases h
      | ok v =>
          rw [hf] at h
          cases hr : validateFields rest input with
          | error e => rw [hr] at h; cases h
          | ok rest2 =>
              rw [hr] at h
              cases h
              simp [ih hr]

/-- Every field of a successfully validated instance comes from the
schema, holding the value its field validation produced. -/
theorem validateFields_mem {fs : List FieldSchema} {input : List (String × JVal)}
    {pm : Instance} (h : validateFields fs input = .ok pm) :
    ∀ fv ∈ pm, fv.1 ∈ fs ∧ validateField input fv.1 = .ok fv.2 := by
  induction fs generalizing pm with
  | nil =>
      simp only [validateFields, Except.ok.injEq] at h
      subst h
      intro fv hfv
      simp at hfv
  | cons f rest ih =>
      simp only [validateFields] at h
      cases hf : validateField input f with
      | error e => rw [hf] at h; cases h
      | ok v =>
          rw [hf] at h
          cases hr : validateFields rest input with
          | error e => rw [hr] at h; cases h
          | ok rest2 =>
              rw [hr] at h
              cases h
              intro fv hfv
              rcases List.mem_cons.mp hfv with heq | hmem
              · subst heq
                exact ⟨List.mem_cons_self _ _, hf⟩
              · obtain ⟨ha, hb⟩ := ih hr fv hmem
                exact ⟨List.mem_cons_of_mem _ ha, hb⟩

/-- The keys of the defaults-excluding dump are a sublist of the
instance's field names. -/
theorem dumpED_names_sublist (pm : Instance) :
    ((dumpExcludeDefaults pm).map Prod.fst).Sublist (pm.map fun fv => fv.1.name) := by
  induction pm with
  | nil => simp [dumpExcludeDefaults]
  | cons fv rest ih =>
      obtain ⟨f, v⟩ := fv
      cases hd : f.defVal with
      | required =>
          simp only [dumpExcludeDefaults, hd, List.map_cons]
          exact List.Sublist.cons₂ _ ih
      | default d =>
          by_cases hv : v = d
          · simp only [dumpExcludeDefaults, hd, if_pos hv, List.map_cons]
            exact List.Sublist.cons _ ih
          · simp only [dumpExcludeDefaults, hd, if_neg hv, List.map_cons]
            exact List.Sublist.cons₂ _ ih

/-- Merging an empty patch dump leaves the instance unchanged. -/
theorem mergeSpec_nil (inst : Instance) : mergeSpec inst [] = inst := by
  simp [mergeSpec, dictGet?]

/-- The write-back loop over a duplicate-free patch dump whose names all
denote unfrozen fields of the instance succeeds and produces exactly the
merge: patched fields take their new value, all others are untouched. -/
theorem updateGo_merge (pd : List (String × Option JVal)) (inst : Instance)
    (hpd : (pd.map Prod.fst).Nodup)
    (hsub : ∀ e ∈ pd, ∃ fv ∈ inst, fv.1.name = e.1)
    (hfz : ∀ e ∈ pd, ∀ fv ∈ inst, fv.1.name = e.1 → fv.1.frozen = false) :
    updateGo inst pd = .ok (mergeSpec inst pd) := by
  induction pd generalizing inst with
  | nil => simp [updateGo, mergeSpec_nil]
  | cons e rest ih =>
      obtain ⟨n, v⟩ := e
      obtain ⟨fv0, hfv0, hname0⟩ := hsub (n, v) (List.mem_cons_self _ _)
      have hfina : (inst.find? fun fv => fv.1.name = n).isSome := by
        rw [List.find?_isSome]
        exact ⟨fv0, hfv0, by simpa using hname0⟩
      obtain ⟨gv, hgv⟩ := Option.isSome_iff_exists.mp hfina
      have hgv_mem : gv ∈ inst := List.mem_of_find?_eq_some hgv
      have hgv_name : gv.1.name = n := by simpa using List.find?_some hgv
      have hgv_frozen : gv.1.frozen = false :=
        hfz (n, v) (List.mem_cons_self _ _) gv hgv_mem hgv_name
      simp only [List.map_cons, List.nodup_cons] at hpd
      obtain ⟨hnmem, hndrest⟩ := hpd
      have hupd_fst : ∀ fv : FieldSchema × Option JVal,
          ((if fv.1.name = n then (fv.1, v) else fv)).1 = fv.1 := by
        intro fv
        by_cases h : fv.1.name = n <;> simp [h]
      have hgo : updateGo (inst.map fun gv2 => if gv2.1.name = n then (gv2.1, v) else gv2) rest
          = .ok (mergeSpec
              (inst.map fun gv2 => if gv2.1.name = n then (gv2.1, v) else gv2) rest) := by
        apply ih _ hndrest
        · intro e2 he2
          obtain ⟨fv2, hfv2, hn2⟩ := hsub e2 (List.mem_cons_of_mem _ he2)
          refine ⟨(if fv2.1.name = n then (fv2.1, v) else fv2),
            List.mem_map_of_mem _ hfv2, ?_⟩
          rw [hupd_fst fv2]
          exact hn2
        · intro e2 he2 fv2 hfv2 hn2
          obtain ⟨fv3, hfv3, hfv32⟩ := List.mem_map.mp hfv2
          have heq1 : fv3.1 = fv2.1 := by rw [← hfv32, hupd_fst fv3]
          have hr := hfz e2 (List.mem_cons_of_mem _ he2) fv3 hfv3 (by rw [heq1]; exact hn2)
          rw [← heq1]
          exact hr
      simp only [updateGo, setattrField, hgv, hgv_frozen, Bool.false_eq_true, if_false, hgo]
      congr 1
      simp only [mergeSpec, List.map_map]
      apply List.map_congr_left
      intro fv hfv
      by_cases hn : fv.1.name = n
      · have hnotin : dictGet? rest fv.1.name = none := by
          apply dictGet?_eq_none_of_notMem
          rw [hn]
          exact hnmem
        simp only [Function.comp_apply, if_pos hn, dictGet?, hnotin]
        have hc : (n = fv.1.name) = True := by simp [hn]
        simp [hc, hnotin]
      · have hc : (n = fv.1.name) = False := by simp [Ne.symm hn]
        simp only [Function.comp_apply, if_neg hn, dictGet?, hc, if_false]

/-- Claim C6 (amended): when the patch validates and no field it writes
(present and non-default in the validated patch) is frozen, `update`
returns the instance in which exactly those fields take their patched
value and every other field keeps its previous value.  The amendment
excludes patches assigning a new value to a frozen (discriminator) field,
on which the source raises from `setattr` instead of returning. -/
theorem C6_update_amended (inst : Instance) (data : List (String × JVal)) (pm : Instance)
    (hnames : (inst.map fun fv => fv.1.name).Nodup)
    (hv : validateFields (inst.map (·.1)) data = .ok pm)
    (hfz : ∀ e ∈ dumpExcludeDefaults pm, ∀ fv ∈ inst, fv.1.name = e.1 → fv.1.frozen = false) :
    updateFields inst data = .ok (mergeSpec inst (dumpExcludeDefaults pm)) := by
  have hschema : pm.map (·.1) = inst.map (·.1) := validateFields_schema hv
  have hpmnames : (pm.map fun fv => fv.1.name) = (inst.map fun fv => fv.1.name) := by
    have h1 : (pm.map fun fv => fv.1.name) = (pm.map (·.1)).map (fun f => f.name) := by
      rw [List.map_map]; rfl
    have h2 : (inst.map fun fv => fv.1.name) = (inst.map (·.1)).map (fun f => f.name) := by
      rw [List.map_map]; rfl
    rw [h1, h2, hschema]
  have hnames2 : ((dumpExcludeDefaults pm).map Prod.fst).Nodup := by
    have := dumpED_names_sublist pm
    rw [hpmnames] at this
    exact List.Nodup.sublist this hnames
  have hsub : ∀ e ∈ dumpExcludeDefaults pm, ∃ fv ∈ inst, fv.1.name = e.1 := by
    intro e he
    have h1 : e.1 ∈ (dumpExcludeDefaults pm).map Prod.fst := List.mem_map_of_mem _ he
    have h2 : e.1 ∈ (pm.map fun fv => fv.1.name) :=
      (dumpED_names_sublist pm).subset h1
    rw [hpmnames] at h2
    obtain ⟨fv, hfv, hfvn⟩ := List.mem_map.mp h2
    exact ⟨fv, hfv, hfvn⟩
  simp only [updateFields, hv]
  exact updateGo_merge _ _ hnames2 hsub hfz

/-- Claim C6, counterexample: the patch validates against the instance's
shape but assigns a new value to the frozen discriminator, so `update`
raises from `setattr` instead of returning the merged instance. -/
theorem C6_counterexample :
    (validateFields
        [ { name := "type", frozen := true, defVal := .default (some (.str "text")) },
          { name := "plain_text" } ]
        [("type", .str "mention"), ("plain_text", .str "x")]).isOk = true ∧
    updateFields
        [ ({ name := "type", frozen := true, defVal := .default (some (.str "text")) },
             some (JVal.str "text")),
          ({ name := "plain_text" }, some (JVal.str "hi")) ]
        [("type", .str "mention"), ("plain_text", .str "x")]
      = .error ("Field is frozen: " ++ "type",
          [ ({ name := "type", frozen := true, defVal := .default (some (.str "text")) },
               some (JVal.str "text")),
            ({ name := "plain_text" }, some (JVal.str "hi")) ]) := by
  exact ⟨rfl, rfl⟩

/-- Witness for the amended C6: the claim's own example — patching
`{a: 5}` onto an instance holding `{a: 1, b: 2}` yields `{a: 5, b: 2}`,
field `b` untouched. -/
theorem C6_update_amended_witness :
    updateFields
        [ ({ name := "a" }, some (JVal.int 1)),
          ({ name := "b", defVal := .default (some (.int 0)) }, some (JVal.int 2)) ]
        [("a", .int 5)]
      = .ok
        [ ({ name := "a" }, some (JVal.int 5)),
          ({ name := "b", defVal := .default (some (.int 0)) }, some (JVal.int 2)) ] := by
  exact C6_update_amended
    [ ({ name := "a" }, some (JVal.int 1)),
      ({ name := "b", defVal := .default (some (.int 0)) }, some (JVal.int 2)) ]
    [("a", .int 5)]
    [ ({ name := "a" }, some (JVal.int 5)),
      ({ name := "b", defVal := .default (some (.int 0)) }, some (JVal.int 0)) ]
    (by decide) rfl (by decide)

/-- Claim C9 (confirmed): `update` validates the patch as a complete
object before any write; when that validation fails the error propagates
with the instance in its original, unmodified state. -/
theorem C9_update_atomic (inst : Instance) (data : List (String × JVal)) (e : String)
    (h : validateFields (inst.map (·.1)) data = .error e) :
    updateFields inst data = .error (e, inst) := by
  simp [updateFields, h]

/-- Witness for C9 at a concrete input: the empty patch misses the
required field `a`, so `update` fails and the instance keeps its value. -/
theorem C9_update_atomic_witness :
    updateFields [({ name := "a" }, some (JVal.int 1))] []
      = .error ("Field required: " ++ "a", [({ name := "a" }, some (JVal.int 1))]) :=
  C9_update_atomic _ _ _ rfl

/-- Processing a single class keyword `(n, v)` succeeds exactly on a
known field and rewrites the schema: field `n` gets default `v` and is
frozen, all other fields are untouched. -/
theorem initSubclass_single {fields fields2 : List FieldSchema} {n : String} {v : JVal}
    (h : pydanticInitSubclass fields [(n, v)] = .ok fields2) :
    fields.any (fun f => f.name = n) = true ∧
    fields2 = fields.map fun f =>
      if f.name = n then { f with defVal := .default (some v), frozen := true } else f := by
  cases ha : fields.any (fun f => f.name = n) with
  | false =>
      simp only [pydanticInitSubclass, updateFieldSchema, ha, Bool.false_eq_true,
        if_false] at h
      cases h
  | true =>
      refine ⟨rfl, ?_⟩
      simp only [pydanticInitSubclass, updateFieldSchema, ha, if_true,
        Except.ok.injEq] at h
      exact h.symm

/-- Claim C8 (amended): after a subclass registers its discriminator
keyword, an instance constructed WITHOUT explicitly supplying the
discriminator holds the registered value there, the field is frozen, and
any later assignment to it fails.  The amendment is the construction
proviso: the source does not narrow the field's annotation (the
`Literal[default]` line is commented out), so construction may override
the discriminator explicitly. -/
theorem C8_discriminator_amended (fields fields2 : List FieldSchema) (dname : String)
    (dval : JVal) (input : List (String × JVal)) (inst : Instance) (w : Option JVal)
    (halias : ∀ f ∈ fields, f.wireAlias = none)
    (h1 : pydanticInitSubclass fields [(dname, dval)] = .ok fields2)
    (h2 : validateFields fields2 input = .ok inst)
    (h3 : dictGet? input dname = none) :
    (∀ fv ∈ inst, fv.1.name = dname → fv.2 = some dval ∧ fv.1.frozen = true) ∧
    (setattrField inst dname w).isOk = false := by
  obtain ⟨hany, hf2⟩ := initSubclass_single h1
  have hmemchar : ∀ g ∈ fields2, g.name = dname →
      g.defVal = .default (some dval) ∧ g.frozen = true ∧ g.wireAlias = none := by
    intro g hg hgname
    rw [hf2] at hg
    obtain ⟨f, hf, hfg⟩ := List.mem_map.mp hg
    by_cases hn : f.name = dname
    · rw [if_pos hn] at hfg
      rw [← hfg]
      exact ⟨rfl, rfl, halias f hf⟩
    · rw [if_neg hn] at hfg
      rw [← hfg] at hgname
      exact absurd hgname hn
  have hmain : ∀ fv ∈ inst, fv.1.name = dname → fv.2 = some dval ∧ fv.1.frozen = true := by
    intro fv hfv hname
    obtain ⟨hfs, hval⟩ := validateFields_mem h2 fv hfv
    obtain ⟨hdef, hfz, hal⟩ := hmemchar fv.1 hfs hname
    refine ⟨?_, hfz⟩
    have han : aliasedName fv.1 = dname := by
      simp [aliasedName, hal, hname]
    simp only [validateField, han, h3, hdef, Except.ok.injEq] at hval
    exact hval.symm
  refine ⟨hmain, ?_⟩
  have hinstnames : inst.map (·.1) = fields2 := validateFields_schema h2
  obtain ⟨f0, hf0, hf0n⟩ := List.any_eq_true.mp hany
  have hf0n2 : f0.name = dname := by simpa using hf0n
  have hup : (if f0.name = dname then
      { f0 with defVal := .default (some dval), frozen := true } else f0) ∈ fields2 := by
    rw [hf2]
    exact List.mem_map_of_mem _ hf0
  rw [if_pos hf0n2] at hup
  rw [← hinstnames] at hup
  obtain ⟨gv0, hgv0, hgv0eq⟩ := List.mem_map.mp hup
  have hgv0name : gv0.1.name = dname := by
    rw [hgv0eq]
    exact hf0n2
  have hfina : (inst.find? fun fv => fv.1.name = dname).isSome := by
    rw [List.find?_isSome]
    exact ⟨gv0, hgv0, by simpa using hgv0name⟩
  obtain ⟨gv, hgv⟩ := Option.isSome_iff_exists.mp hfina
  have hgv_mem : gv ∈ inst := List.mem_of_find?_eq_some hgv
  have hgv_name : gv.1.name = dname := by simpa using List.find?_some hgv
  have hgv_frozen : gv.1.frozen = true := (hmain gv hgv_mem hgv_name).2
  simp [setattrField, hgv, hgv_frozen, Except.isOk, Except.toBool]

/-- Claim C8, counterexample: because the discriminator's annotation is
not narrowed to the registered literal, constructing a `TextObject` with
an explicit different discriminator value succeeds, so a variant instance
need not hold the registered value. -/
theorem C8_counterexample :
    validateFields textObjectFields [("type", .str "bogus"), ("plain_text", .str "hi")]
      = .ok
        [ ({ name := "type", frozen := true, defVal := .default (some (.str "text")) },
             some (JVal.str "bogus")),
          ({ name := "plain_text" }, some (JVal.str "hi")),
          ({ name := "href", defVal := .default none }, (none : Option JVal)),
          ({ name := "annotations", defVal := .default none }, (none : Option JVal)),
          ({ name := "text", defVal := .default none }, (none : Option JVal)) ] ∧
    JVal.str "bogus" ≠ JVal.str "text" := by
  exact ⟨rfl, by decide⟩

/-- Witness for the amended C8 at a concrete input: a `TextObject` built
without supplying `type` gets the frozen registered value, and a later
assignment attempt fails. -/
theorem C8_discriminator_amended_witness :
    (setattrField
        [ ({ name := "type", frozen := true, defVal := .default (some (.str "text")) },
             some (JVal.str "text")),
          ({ name := "plain_text" }, some (JVal.str "hi")),
          ({ name := "href", defVal := .default none }, (none : Option JVal)),
          ({ name := "annotations", defVal := .default none }, (none : Option JVal)),
          ({ name := "text", defVal := .default none }, (none : Option JVal)) ]
        "type" (some (.str "mention"))).isOk = false :=
  (C8_discriminator_amended textObjectBaseFields textObjectFields "type" (.str "text")
    [("plain_text", .str "hi")] _ (some (.str "mention"))
    (by decide) rfl rfl rfl).2

/-- Claim C7 (confirmed, composition rule modelled from the spec):
composing a text variant from the single string `"hello"` through the
subscript dispatch produces exactly the instance built manually from the
full nested structured form with content `"hello"` and default styling. -/
theorem C7_compose_text :
    getitemCompose (some TextObject.composeFromParams) (.pyStr "hello")
      = .ok (some
          { type := "text", plain_text := "hello", href := none,
            annotations := none,
            text := some { content := "hello", link := none } }) := by
  rfl

/-- Claim C10 (confirmed): subscript composition unpacks its argument
into several parameters exactly when it is non-empty and of exact type
`list` or `tuple`; empty lists and tuples, subclass instances
(`exactTy = false`), and scalars are passed as one single argument. -/
theorem C10_getitem_dispatch {α : Type} (c : List PyParams → α) :
    (∀ xs, xs ≠ [] → getitemCompose (some c) (.pyList true xs) = .ok (c xs)) ∧
    (∀ xs, xs ≠ [] → getitemCompose (some c) (.pyTuple true xs) = .ok (c xs)) ∧
    (getitemCompose (some c) (.pyList true []) = .ok (c [.pyList true []])) ∧
    (getitemCompose (some c) (.pyTuple true []) = .ok (c [.pyTuple true []])) ∧
    (∀ xs, getitemCompose (some c) (.pyList false xs) = .ok (c [.pyList false xs])) ∧
    (∀ xs, getitemCompose (some c) (.pyTuple false xs) = .ok (c [.pyTuple false xs])) ∧
    (∀ s, getitemCompose (some c) (.pyStr s) = .ok (c [.pyStr s])) ∧
    (∀ n, getitemCompose (some c) (.pyInt n) = .ok (c [.pyInt n])) := by
  refine ⟨?_, ?_, rfl, rfl, ?_, ?_, ?_, ?_⟩
  · intro xs hxs
    cases xs with
    | nil => exact absurd rfl hxs
    | cons a t =>
        simp [getitemCompose, PyParams.truthy, PyParams.isExactSeq, PyParams.seqElems]
  · intro xs hxs
    cases xs with
    | nil => exact absurd rfl hxs
    | cons a t =>
        simp [getitemCompose, PyParams.truthy, PyParams.isExactSeq, PyParams.seqElems]
  · intro xs
    simp [getitemCompose, PyParams.truthy, PyParams.isExactSeq]
  · intro xs
    simp [getitemCompose, PyParams.truthy, PyParams.isExactSeq]
  · intro s
    simp [getitemCompose, PyParams.truthy, PyParams.isExactSeq]
  · intro n
    simp [getitemCompose, PyParams.truthy, PyParams.isExactSeq]

/-- Witness for C10 at concrete inputs: a non-empty exact list of two
strings is unpacked into two arguments of the composition rule. -/
theorem C10_getitem_dispatch_witness :
    getitemCompose (some composeArity) (.pyList true [.pyStr "a", .pyStr "b"]) = .ok 2 :=
  (C10_getitem_dispatch composeArity).1 [.pyStr "a", .pyStr "b"] (by simp)
